import Mathlib

/-!
Verification of the orchestration core of the impostor Discord agent.

The definitions below are a shallow embedding of the JavaScript source:
  - classes/database.js        (message store, decision log)
  - classes/response_evaluator.js  (dominance ratio, decision oracle adapter)
  - classes/impostor_client.js (scheduler, context windower, dispatch queue,
                                generation / tool-iteration loop)

Timestamps are modelled as integers (epoch milliseconds).  The database
stores ISO-8601 UTC strings and orders them lexicographically, which
coincides with chronological order, and all in-process comparisons go
through Date.getTime, so an integer timestamp is a faithful model.
-/

namespace Impostor

/-- A row of the messages table (database.js, createTables / runMigrations).
The enrichment columns (vision descriptions, url summaries) are nullable
and attached after the row exists. -/
structure Msg where
  id : String
  channel_id : String
  author_id : String
  author_name : String
  content : String
  created_at : Int
  is_bot_message : Bool
  attachments : Option String
  vision_descriptions : Option (List String)
  url_summaries : Option (List (String × String))
  reply_to_message_id : Option String
deriving Repr, DecidableEq

/-- A row of the decision_log table (database.js, createTables plus the
evaluated_message_ids migration). -/
structure DecisionRecord where
  channel_id : String
  messages_evaluated : Nat
  should_respond : Bool
  reply_to_message_id : Option String
  reason : String
  response_sent : Bool
  evaluated_message_ids : Option (List String)
deriving Repr, DecidableEq

/-- Whether needle occurs at the very start of hay. -/
def charsStartWith : List Char → List Char → Bool
  | _, [] => true
  | [], _ :: _ => false
  | h :: t, n :: nt => h == n && charsStartWith t nt

/-- Whether needle occurs anywhere inside hay. -/
def charsContain (hay needle : List Char) : Bool :=
  match hay with
  | [] => charsStartWith [] needle
  | _ :: t => charsStartWith hay needle || charsContain t needle

/-- JavaScript string inclusion test, hay.includes(needle). -/
def strContains (hay needle : String) : Bool :=
  charsContain hay.toList needle.toList

/-- JavaScript (x || null) applied to an optional string: the empty string
is falsy and collapses to null. -/
def jsOrNull (o : Option String) : Option String :=
  match o with
  | some s => if s = "" then none else some s
  | none => none

/-- JavaScript (x || d) applied to an optional string with default d. -/
def jsOrDefault (o : Option String) (d : String) : String :=
  match o with
  | some s => if s = "" then d else s
  | none => d

/-! ## Message store (database.js) -/

/-- insertMessageEnhanced (database.js:168).  INSERT OR REPLACE keyed on
the primary key id: any existing row with the same id is deleted and the
new row is inserted. -/
def insertMessageEnhanced (tbl : List Msg) (m : Msg) : List Msg :=
  tbl.filter (fun r => !(r.id == m.id)) ++ [m]

/-- getMessage (database.js:257): SELECT * FROM messages WHERE id = ?,
stmt.get returns the first matching row. -/
def getMessage (tbl : List Msg) (messageId : String) : Option Msg :=
  (tbl.filter (fun r => r.id == messageId)).head?

/-- Number of stored rows carrying a given id. -/
def countById (tbl : List Msg) (messageId : String) : Nat :=
  (tbl.filter (fun r => r.id == messageId)).length

/-- Insertion step for sorting rows by created_at descending. -/
def insertDescByTime (m : Msg) : List Msg → List Msg
  | [] => [m]
  | x :: xs =>
    if x.created_at ≤ m.created_at then m :: x :: xs else x :: insertDescByTime m xs

/-- ORDER BY created_at DESC. -/
def sortDescByTime : List Msg → List Msg
  | [] => []
  | x :: xs => insertDescByTime x (sortDescByTime xs)

/-- Insertion step for sorting rows by created_at ascending. -/
def insertAscByTime (m : Msg) : List Msg → List Msg
  | [] => [m]
  | x :: xs =>
    if m.created_at ≤ x.created_at then m :: x :: xs else x :: insertAscByTime m xs

/-- ORDER BY created_at ASC. -/
def sortAscByTime : List Msg → List Msg
  | [] => []
  | x :: xs => insertAscByTime x (sortAscByTime xs)

/-- getRecentMessages (database.js:443).  The inner query selects the
LIMIT most recent rows of the channel (ORDER BY created_at DESC LIMIT ?);
the outer query re-sorts that slice ORDER BY created_at ASC.  The rows
delivered to the caller are therefore in ascending (oldest first) order. -/
def getRecentMessages (tbl : List Msg) (channelId : String) (limit : Nat) : List Msg :=
  sortAscByTime ((sortDescByTime (tbl.filter (fun r => r.channel_id == channelId))).take limit)

/-- logDecision (database.js:527): appends one decision_log row with
response_sent = 0 and returns the fresh row id. -/
def logDecision (log : List DecisionRecord) (channelId : String) (messagesEvaluated : Nat)
    (shouldRespondFlag : Bool) (replyToMessageId : Option String) (reason : String)
    (evaluatedMessageIds : Option (List String)) : List DecisionRecord × Nat :=
  (log ++ [{ channel_id := channelId
             messages_evaluated := messagesEvaluated
             should_respond := shouldRespondFlag
             reply_to_message_id := replyToMessageId
             reason := reason
             response_sent := false
             evaluated_message_ids := evaluatedMessageIds }],
   log.length + 1)

/-! ## Dominance ratio (response_evaluator.js) -/

/-- calculateBotRatio (response_evaluator.js:73).  Takes the first
maxMessages entries of the delivered list, keeps those within the age
window, and divides the count of agent-authored messages by the window
size; an empty window gives ratio 0. -/
def calculateBotRatio (allRecentMessages : List Msg) (botUserId : String) (nowMs : Int)
    (maxMessages : Nat) (maxAgeMinutes : Int) : Rat :=
  if allRecentMessages.isEmpty then 0
  else
    let cutoffTime := nowMs - maxAgeMinutes * 60 * 1000
    let recentMessages :=
      (allRecentMessages.take maxMessages).filter (fun m => cutoffTime ≤ m.created_at)
    if recentMessages.isEmpty then 0
    else
      let botMessages :=
        recentMessages.filter (fun m => m.is_bot_message || m.author_id == botUserId)
      (botMessages.length : Rat) / (recentMessages.length : Rat)

/-! ## Context windower (impostor_client.js) -/

/-- hasMessagesSinceLastBotResponse (impostor_client.js:235): false on an
empty list, otherwise true exactly when the first delivered entry is not
agent-authored. -/
def hasMessagesSinceLastBotResponse (messages : List Msg) : Bool :=
  match messages with
  | [] => false
  | m :: _ => !m.is_bot_message

/-- The scan inside filterByConversationGaps (impostor_client.js:321):
walking the list in delivered order, at the first adjacent pair whose
timestamp difference exceeds maxGapMs everything older than the pair is
dropped (the loop returns slice(0, i + 1)). -/
def gapCut (maxGapMs : Int) : List Msg → List Msg
  | [] => []
  | [m] => [m]
  | m :: n :: rest =>
    if maxGapMs < m.created_at - n.created_at then [m]
    else m :: gapCut maxGapMs (n :: rest)

/-- filterByConversationGaps (impostor_client.js:313). -/
def filterByConversationGaps (messages : List Msg) (maxGapMinutes : Int) : List Msg :=
  if messages.length ≤ 1 then messages
  else gapCut (maxGapMinutes * 60 * 1000) messages

/-- The index scan of getMessagesForEvaluation (impostor_client.js:276):
for the first index i with is_bot_message it yields
(slice(0, i), messages[i], slice(i + 1)); none when no entry is
agent-authored (lastBotIndex stays -1). -/
def splitAtFirstBot : List Msg → Option (List Msg × Msg × List Msg)
  | [] => none
  | m :: rest =>
    if m.is_bot_message then some ([], m, rest)
    else
      match splitAtFirstBot rest with
      | none => none
      | some (pre, b, post) => some (m :: pre, b, post)

/-- getMessagesForEvaluation (impostor_client.js:250).  Age filter, gap
filter, then the window anchored on the first agent-authored entry of the
delivered order: slice(0, i).reverse is appended after it and up to
contextBefore entries of slice(i + 1) are reversed in front of it. -/
def getMessagesForEvaluation (messages : List Msg) (contextBefore : Nat)
    (nowMs : Int) (maxAgeMinutes : Int) (maxGapMinutes : Int) : List Msg :=
  let cutoffTime := nowMs - maxAgeMinutes * 60 * 1000
  let recentMessages := messages.filter (fun m => cutoffTime ≤ m.created_at)
  if recentMessages.length = 0 then []
  else
    let filteredMessages := filterByConversationGaps recentMessages maxGapMinutes
    if filteredMessages.length = 0 then []
    else
      match splitAtFirstBot filteredMessages with
      | none => filteredMessages.reverse
      | some (messagesAfterBot, botMessage, tailBeforeBot) =>
        let messagesBeforeBot := tailBeforeBot.take contextBefore
        messagesBeforeBot.reverse ++ botMessage :: messagesAfterBot.reverse

/-! ## Decision oracle adapter (response_evaluator.js shouldRespond) -/

/-- Outcome of one decision-oracle exchange, as seen after JSON parsing:
either the call or the parse threw (failure, with the error text), or a
parsed object was produced whose should_respond field is a boolean
(some b) or missing / not boolean (none). -/
inductive OracleOutcome where
  | failure (err : String)
  | response (should_respond : Option Bool) (reply_to_message_id : Option String)
      (reason : Option String)
deriving Repr, DecidableEq

/-- The value shouldRespond returns to its caller. -/
structure EvalDecision where
  should_respond : Bool
  reply_to_message_id : Option String
  reason : String
  decisionId : Option Nat
deriving Repr, DecidableEq

/-- shouldRespond (response_evaluator.js:133).  Returns the decision, the
updated decision log, and whether the oracle was called.  An empty window
returns early with no oracle call and no log write.  Otherwise the oracle
outcome is normalized: a missing or non-boolean verdict throws inside the
try block, and the catch branch logs a negative decision whose reason
carries the error text, mirroring the network / parse failure path. -/
def shouldRespond (messages : List Msg) (botUserId : String) (channelId : String)
    (botRatio : Option Rat) (outcome : OracleOutcome) (log : List DecisionRecord) :
    EvalDecision × List DecisionRecord × Bool :=
  match messages with
  | [] =>
    ({ should_respond := false, reply_to_message_id := none
       reason := "No messages to evaluate", decisionId := none }, log, false)
  | _ :: _ =>
    let evaluatedMessageIds := messages.map (fun m => m.id)
    match outcome with
    | OracleOutcome.response (some b) replyTo reason =>
      let normReplyTo := jsOrNull replyTo
      let normReason := jsOrDefault reason "No reason provided"
      let (log1, decisionId) :=
        logDecision log channelId messages.length b normReplyTo normReason
          (some evaluatedMessageIds)
      ({ should_respond := b, reply_to_message_id := normReplyTo
         reason := normReason, decisionId := some decisionId }, log1, true)
    | OracleOutcome.response none _ _ =>
      let err := "Invalid decision structure: missing should_respond"
      let (log1, decisionId) :=
        logDecision log channelId messages.length false none ("Error: " ++ err)
          (some evaluatedMessageIds)
      ({ should_respond := false, reply_to_message_id := none
         reason := "Evaluation error: " ++ err, decisionId := some decisionId }, log1, true)
    | OracleOutcome.failure err =>
      let (log1, decisionId) :=
        logDecision log channelId messages.length false none ("Error: " ++ err)
          (some evaluatedMessageIds)
      ({ should_respond := false, reply_to_message_id := none
         reason := "Evaluation error: " ++ err, decisionId := some decisionId }, log1, true)

/-! ## Evaluation scheduler and dispatch queue (impostor_client.js) -/

/-- A queued dispatch job (the queueItem objects pushed in
handleMessageCreate and evaluateAutonomousResponse). -/
inductive Job where
  | direct (message : Msg)
  | autonomous (channelId : String) (decisionId : Option Nat)
deriving Repr, DecidableEq

/-- The scheduler state touched by handleMessageCreate: the channels with
an armed debounce timer (at most one per channel, the keys of the
evaluationTimers map) and the pending dispatch queue.  The numeric delay
of a timer is real-time behaviour and is not modelled. -/
structure ClientState where
  timers : List String
  queue : List Job
deriving Repr, DecidableEq

/-- An inbound transport message as consumed by handleMessageCreate. -/
structure InboundMsg where
  record : Msg
  author_is_bot_account : Bool
  replied_user_id : Option String
deriving Repr, DecidableEq

/-- isAllowedChannel (impostor_client.js:89): an empty whitelist allows
every channel, otherwise the channel id must include one of the entries. -/
def isAllowedChannel (channels : List String) (channelId : String) : Bool :=
  if channels.length = 0 then true
  else channels.any (fun element => strContains channelId element)

/-- isDirectTrigger (impostor_client.js:101): the content includes the
bot user id, or the message replies to the bot. -/
def isDirectTrigger (botUserId : String) (m : InboundMsg) : Bool :=
  strContains m.record.content botUserId ||
    (match m.replied_user_id with
     | some rid => rid == botUserId
     | none => false)

/-- scheduleAutonomousEvaluation (impostor_client.js:154) restricted to
its timer-state effect: any existing timer of the channel is cleared and
one fresh timer is armed. -/
def scheduleAutonomousEvaluation (s : ClientState) (channelId : String) : ClientState :=
  { s with timers := channelId :: s.timers.filter (fun c => !(c == channelId)) }

/-- cancelEvaluationTimer (impostor_client.js:480): clears and removes
the timer of the channel when one is armed. -/
def cancelEvaluationTimer (s : ClientState) (channelId : String) : ClientState :=
  { s with timers := s.timers.filter (fun c => !(c == channelId)) }

/-- handleMessageCreate (impostor_client.js:116), restricted to its
scheduler effect: messages from bot accounts and disallowed channels are
ignored; a direct trigger pushes a direct job onto the queue and returns
(the armed timers are left untouched); otherwise, with autonomous mode
enabled, the debounce timer of the channel is (re)armed. -/
def handleMessageCreate (botUserId : String) (channels : List String)
    (autonomousEnabled : Bool) (s : ClientState) (m : InboundMsg) : ClientState :=
  if m.author_is_bot_account then s
  else if !(isAllowedChannel channels m.record.channel_id) then s
  else if isDirectTrigger botUserId m then
    { s with queue := s.queue ++ [Job.direct m.record] }
  else if autonomousEnabled then
    scheduleAutonomousEvaluation s m.record.channel_id
  else s

/-- evaluateAutonomousResponse (impostor_client.js:185), for one timer
firing: the recent messages were already fetched from the store, the
oracle behaviour is the given outcome.  Returns the updated decision log,
the updated queue, and whether the decision oracle was called. -/
def evaluateAutonomousResponse (recentMessages : List Msg) (botUserId : String)
    (channelId : String) (outcome : OracleOutcome) (log : List DecisionRecord)
    (queue : List Job) (nowMs : Int) : List DecisionRecord × List Job × Bool :=
  let botRatio := calculateBotRatio recentMessages botUserId nowMs 20 30
  if !(hasMessagesSinceLastBotResponse recentMessages) then (log, queue, false)
  else
    let evaluationMessages := getMessagesForEvaluation recentMessages 5 nowMs 30 30
    let (decision, log1, called) :=
      shouldRespond evaluationMessages botUserId channelId (some botRatio) outcome log
    let queue1 :=
      if decision.should_respond then queue ++ [Job.autonomous channelId decision.decisionId]
      else queue
    (log1, queue1, called)

/-- A user-visible effect of the dispatch worker. -/
inductive DispatchEvent where
  | completed (job : Job)
  | errorReply (message : Msg)
deriving Repr, DecidableEq

/-- processMessageQueue (impostor_client.js:336): the single worker pops
jobs one at a time; an error thrown while processing a job is caught, a
direct job then gets sendErrorResponse (an apology reply to the
triggering message, impostor_client.js:793) while an autonomous job gets
nothing, and the worker continues with the rest of the queue. -/
def processMessageQueue (proc : Job → Except String Unit) : List Job → List DispatchEvent
  | [] => []
  | job :: rest =>
    match proc job with
    | Except.ok _ => DispatchEvent.completed job :: processMessageQueue proc rest
    | Except.error _ =>
      match job with
      | Job.direct m => DispatchEvent.errorReply m :: processMessageQueue proc rest
      | Job.autonomous _ _ => processMessageQueue proc rest

/-! ## Generation engine / tool-iteration loop (impostor_client.js) -/

/-- A tool request inside a structured oracle response. -/
structure ToolRequest where
  tool_name : String
  code : Option String
  query : Option String
  url : Option String
  reason : Option String
deriving Repr, DecidableEq

/-- A parsed structured response of the generation oracle
(parseStructuredResponse, impostor_client.js:709).  A JSON parse failure
is already normalized by the source into needs_tool = false,
continue_iterating = false with the raw text as the message, so an
arbitrary sequence of these values covers every oracle behaviour. -/
structure StructuredResponse where
  needs_tool : Bool
  continue_iterating : Bool
  message : Option String
  tool_request : Option ToolRequest
deriving Repr, DecidableEq

/-- The while loop of generateResponseWithChatCompletions
(impostor_client.js:615).  fuel is maxIterations minus the iterations
already performed; calls counts oracle calls so far and indexes the next
oracle answer.  One pass: the loop guard needs needs_tool, a present
tool_request and a remaining iteration; the tool runs, the oracle is
called again, and a response with continue_iterating false breaks. -/
def toolLoopAux (oracle : Nat → StructuredResponse) :
    Nat → StructuredResponse → Nat → StructuredResponse × Nat
  | 0, resp, calls => (resp, calls)
  | fuel + 1, resp, calls =>
    if resp.needs_tool && resp.tool_request.isSome then
      let newResp := oracle calls
      if newResp.continue_iterating then toolLoopAux oracle fuel newResp (calls + 1)
      else (newResp, calls + 1)
    else (resp, calls)

/-- generateResponseWithChatCompletions (impostor_client.js:606), with
the oracle abstracted as the sequence of its parsed responses.  Returns
the final reply text and the total number of oracle calls.  The final
message falls back to the apology when missing or empty (JavaScript ||)
and is truncated to 2000 characters. -/
def generateResponse (oracle : Nat → StructuredResponse) (maxIterations : Nat) :
    String × Nat :=
  let resp0 := oracle 0
  let (finalResp, calls) := toolLoopAux oracle maxIterations resp0 1
  let replyMessage := jsOrDefault finalResp.message "Something went wrong with my processing."
  (if 2000 < replyMessage.length then (replyMessage.toList.take 2000).asString
   else replyMessage, calls)

/-! ## Specification-side predicates and example inputs -/

/-- The timestamp gap between the entries at positions i and i + 1 of a
delivered list, when both exist. -/
def gapAt (messages : List Msg) (i : Nat) : Option Int :=
  match messages[i]?, messages[i + 1]? with
  | some a, some b => some (a.created_at - b.created_at)
  | _, _ => none

/-- True when the gap at position j (if any) stays within the bound. -/
def gapLeB (maxGapMs : Int) (messages : List Msg) (j : Nat) : Bool :=
  match gapAt messages j with
  | some d => decide (d ≤ maxGapMs)
  | none => true

/-- Newest-first (descending created_at) ordering of a delivered list. -/
abbrev sortedNewestFirst (l : List Msg) : Prop :=
  l.Pairwise (fun a b => b.created_at ≤ a.created_at)

/-- Chronological (ascending created_at) ordering of a delivered list. -/
abbrev sortedOldestFirst (l : List Msg) : Prop :=
  l.Pairwise (fun a b => a.created_at ≤ b.created_at)

/-- The windower contract stated by the specification, evaluated on the
embedded code: the output is chronological; when no agent-authored
message survives age and gap filtering the output is all survivors
oldest first; when one does, the survivors decompose around the most
recent agent-authored message (everything delivered before it is
non-agent) and the output is up to contextBefore preceding messages,
that message, then everything following it, oldest first. -/
def windowerSpec (messages : List Msg) (contextBefore : Nat)
    (nowMs maxAgeMinutes maxGapMinutes : Int) : Prop :=
  let result := getMessagesForEvaluation messages contextBefore nowMs maxAgeMinutes maxGapMinutes
  let survivors := filterByConversationGaps
    (messages.filter (fun m => nowMs - maxAgeMinutes * 60 * 1000 ≤ m.created_at)) maxGapMinutes
  sortedOldestFirst result ∧
  (splitAtFirstBot survivors = none →
    (∀ m ∈ survivors, m.is_bot_message = false) ∧ result = survivors.reverse) ∧
  (∀ afterBot botMsg beforeBot,
    splitAtFirstBot survivors = some (afterBot, botMsg, beforeBot) →
      botMsg.is_bot_message = true ∧
      (∀ m ∈ afterBot, m.is_bot_message = false) ∧
      survivors = afterBot ++ botMsg :: beforeBot ∧
      result = (beforeBot.take contextBefore).reverse ++ botMsg :: afterBot.reverse)

/-- The decision-oracle adapter contract stated by the specification for
a call on a nonempty window, evaluated on the embedded code: exactly one
decision row is appended before returning, carrying the evaluated
message ids, the channel and the window size; the oracle was called; a
failed call (thrown error or missing / non-boolean verdict) yields a
negative returned verdict whose reason carries the error text, and a
successful call yields the parsed verdict. -/
def adapterLogsSpec (messages : List Msg) (botUserId channelId : String)
    (botRatio : Option Rat) (outcome : OracleOutcome) (log : List DecisionRecord) : Prop :=
  let result := shouldRespond messages botUserId channelId botRatio outcome log
  ∃ rec : DecisionRecord,
    result.2.1 = log ++ [rec] ∧
    rec.evaluated_message_ids = some (messages.map (fun m => m.id)) ∧
    rec.channel_id = channelId ∧
    rec.messages_evaluated = messages.length ∧
    result.2.2 = true ∧
    (∀ err, outcome = OracleOutcome.failure err →
      result.1.should_respond = false ∧
      result.1.reason = "Evaluation error: " ++ err ∧
      rec.should_respond = false ∧
      rec.reason = "Error: " ++ err) ∧
    (∀ rto rsn, outcome = OracleOutcome.response none rto rsn →
      result.1.should_respond = false ∧ rec.should_respond = false) ∧
    (∀ b rto rsn, outcome = OracleOutcome.response (some b) rto rsn →
      result.1.should_respond = b ∧ rec.should_respond = b)

/-- Builds a stored message with no enrichment attached. -/
def mkMsg (id channelId authorId : String) (t : Int) (bot : Bool) (content : String) : Msg :=
  { id := id, channel_id := channelId, author_id := authorId, author_name := authorId
    content := content, created_at := t, is_bot_message := bot
    attachments := none, vision_descriptions := none, url_summaries := none
    reply_to_message_id := none }

/-- A delivered history whose dominance ratio is 1/2 (two of the four
messages inside the 20-message, 30-minute window are agent-authored),
newest first, with a fresh human message on top. -/
def exDominated : List Msg :=
  [ mkMsg "h1" "chan" "alice" 0 false "so what do you think"
  , mkMsg "b1" "chan" "BOT" (-60000) true "beep"
  , mkMsg "b2" "chan" "BOT" (-120000) true "boop"
  , mkMsg "h2" "chan" "bob" (-180000) false "hello" ]

/-- A two-message history delivered oldest first (ascending). -/
def exAscending : List Msg :=
  [ mkMsg "a1" "chan" "alice" 0 false "first"
  , mkMsg "a2" "chan" "bob" 60000 false "second" ]

/-- A three-message history delivered newest first whose second gap
(8990 seconds) exceeds the 30-minute threshold. -/
def exGapped : List Msg :=
  [ mkMsg "g1" "chan" "alice" 10000000 false "late"
  , mkMsg "g2" "chan" "bob" 9990000 false "also late"
  , mkMsg "g3" "chan" "carol" 1000000 false "early" ]

/-- A newest-first history with one agent-authored message in the middle
of the surviving window. -/
def exWindowed : List Msg :=
  [ mkMsg "w1" "chan" "alice" 0 false "newest"
  , mkMsg "w2" "chan" "BOT" (-60000) true "agent reply"
  , mkMsg "w3" "chan" "bob" (-120000) false "older"
  , mkMsg "w4" "chan" "carol" (-180000) false "oldest kept" ]

/-- Two stored rows of one channel with distinct timestamps. -/
def exStoreOld : Msg := mkMsg "s-old" "chan" "alice" 1000 false "older row"

/-- The newer of the two stored rows. -/
def exStoreNew : Msg := mkMsg "s-new" "chan" "bob" 2000 false "newer row"

/-- An inbound message replying to the bot (a direct trigger). -/
def exDirectInbound : InboundMsg :=
  { record := mkMsg "d1" "chan1" "alice" 0 false "are you there"
    author_is_bot_account := false
    replied_user_id := some "BOT" }

/-! ## Shared lemmas -/

theorem gapAt_cons (m : Msg) (rest : List Msg) (i : Nat) :
    gapAt (m :: rest) (i + 1) = gapAt rest i := by
  simp [gapAt]

theorem gapLeB_cons (T : Int) (m : Msg) (rest : List Msg) (i : Nat) :
    gapLeB T (m :: rest) (i + 1) = gapLeB T rest i := by
  simp [gapLeB, gapAt_cons]

theorem gapCut_keep_all (T : Int) :
    ∀ msgs : List Msg, (∀ j < msgs.length, gapLeB T msgs j = true) →
      gapCut T msgs = msgs := by
  intro msgs
  induction msgs with
  | nil => intro _; simp [gapCut]
  | cons m rest ih =>
    cases rest with
    | nil => intro _; simp [gapCut]
    | cons n rest2 =>
      intro h
      have h0 := h 0 (by simp)
      have hg : m.created_at - n.created_at ≤ T := by
        simpa [gapLeB, gapAt] using h0
      have hrec : gapCut T (n :: rest2) = n :: rest2 := by
        apply ih
        intro j hj
        have := h (j + 1) (by simpa using Nat.succ_lt_succ hj)
        simpa [gapLeB_cons] using this
      simp [gapCut, not_lt.mpr hg, hrec]

theorem gapCut_cut (T : Int) :
    ∀ (msgs : List Msg) (i : Nat) (d : Int),
      gapAt msgs i = some d → T < d →
      (∀ j < i, gapLeB T msgs j = true) →
      gapCut T msgs = msgs.take (i + 1) := by
  intro msgs
  induction msgs with
  | nil => intro i d h; simp [gapAt] at h
  | cons m rest ih =>
    cases rest with
    | nil =>
      intro i d h
      have hnone : (([m] : List Msg))[i + 1]? = none := by
        apply List.getElem?_eq_none
        simp
      simp [gapAt, hnone] at h
    | cons n rest2 =>
      intro i d h hlt hmin
      cases i with
      | zero =>
        have hd : m.created_at - n.created_at = d := by
          simpa [gapAt] using h
        simp [gapCut, hd ▸ hlt]
      | succ i2 =>
        have h0 := hmin 0 (Nat.succ_pos _)
        have hg : m.created_at - n.created_at ≤ T := by
          simpa [gapLeB, gapAt] using h0
        have hrec : gapCut T (n :: rest2) = (n :: rest2).take (i2 + 1) := by
          apply ih i2 d
          · simpa [gapAt_cons] using h
          · exact hlt
          · intro j hj
            have := hmin (j + 1) (Nat.succ_lt_succ hj)
            simpa [gapLeB_cons] using this
        simp [gapCut, not_lt.mpr hg, hrec]

theorem gapAt_isSome_length {msgs : List Msg} {i : Nat} {d : Int}
    (h : gapAt msgs i = some d) : i + 1 < msgs.length := by
  by_cases hl : i + 1 < msgs.length
  · exact hl
  · have : msgs[i + 1]? = none := List.getElem?_eq_none (by omega)
    simp [gapAt, this] at h

theorem toolLoopAux_calls_le (oracle : Nat → StructuredResponse) :
    ∀ (fuel : Nat) (resp : StructuredResponse) (calls : Nat),
      (toolLoopAux oracle fuel resp calls).2 ≤ calls + fuel := by
  intro fuel
  induction fuel with
  | zero => intro resp calls; simp [toolLoopAux]
  | succ f ih =>
    intro resp calls
    by_cases h : (resp.needs_tool && resp.tool_request.isSome) = true
    · by_cases h2 : (oracle calls).continue_iterating = true
      · simp only [toolLoopAux, h, if_true, h2]
        exact le_trans (ih _ _) (by omega)
      · have h2f : (oracle calls).continue_iterating = false := by simpa using h2
        simp [toolLoopAux, h, h2f]
    · have hf : (resp.needs_tool && resp.tool_request.isSome) = false := by simpa using h
      simp [toolLoopAux, hf]

/-! ## Claim C5: the conversation-gap filter -/

/-- C5: walking the delivered (newest to oldest) list, the gap filter
keeps everything when no adjacent gap exceeds the threshold, and at the
first adjacent pair whose gap exceeds the threshold it keeps exactly the
messages up to and including the newer element of that pair, excluding
everything older. -/
theorem filterByConversationGaps_spec (messages : List Msg) (maxGapMinutes : Int) :
    ((∀ j < messages.length, gapLeB (maxGapMinutes * 60 * 1000) messages j = true) →
      filterByConversationGaps messages maxGapMinutes = messages) ∧
    (∀ i d, gapAt messages i = some d → maxGapMinutes * 60 * 1000 < d →
      (∀ j < i, gapLeB (maxGapMinutes * 60 * 1000) messages j = true) →
      filterByConversationGaps messages maxGapMinutes = messages.take (i + 1)) := by
  constructor
  · intro h
    by_cases hl : messages.length ≤ 1
    · simp [filterByConversationGaps, hl]
    · simp only [filterByConversationGaps, hl, if_false]
      exact gapCut_keep_all _ messages h
  · intro i d h hlt hmin
    have hlen := gapAt_isSome_length h
    have hl : ¬ messages.length ≤ 1 := by omega
    simp only [filterByConversationGaps, hl, if_false]
    exact gapCut_cut _ messages i d h hlt hmin

/-- Witness for C5 at a concrete gapped history: the second gap of
exGapped exceeds 30 minutes, the first does not, and the filter keeps
exactly the two newest messages. -/
theorem filterByConversationGaps_spec_witness :
    gapAt exGapped 1 = some 8990000 ∧
    ((30 : Int) * 60 * 1000 < 8990000) ∧
    (∀ j < 1, gapLeB (30 * 60 * 1000) exGapped j = true) ∧
    filterByConversationGaps exGapped 30 = exGapped.take 2 :=
  ⟨by decide, by decide, by decide,
   (filterByConversationGaps_spec exGapped 30).2 1 8990000 (by decide) (by decide) (by decide)⟩

/-! ## Claim C3: the tool-iteration loop call bound -/

/-- C3: for every oracle behaviour a generation call terminates (the
embedding is a total function) and makes at most maxIterations + 1 oracle
calls; with the source default of 10 iterations, at most 11 calls. -/
theorem generateResponse_call_bound :
    (∀ (oracle : Nat → StructuredResponse) (maxIterations : Nat),
      (generateResponse oracle maxIterations).2 ≤ maxIterations + 1) ∧
    (∀ oracle : Nat → StructuredResponse, (generateResponse oracle 10).2 ≤ 11) := by
  have hmain : ∀ (oracle : Nat → StructuredResponse) (maxIterations : Nat),
      (generateResponse oracle maxIterations).2 ≤ maxIterations + 1 := by
    intro oracle maxIterations
    have h := toolLoopAux_calls_le oracle maxIterations (oracle 0) 1
    rcases hte : toolLoopAux oracle maxIterations (oracle 0) 1 with ⟨fr, calls⟩
    rw [hte] at h
    simp only [generateResponse, hte]
    simpa using by omega
  exact ⟨hmain, fun oracle => hmain oracle 10⟩

/-! ## Claim C7: idempotent upsert of messages -/

/-- C7: insertMessageEnhanced is an upsert keyed on the message id:
after any insert exactly one stored row carries the inserted id, and
re-inserting an id (with different enrichment) leaves the single row
reflecting the latest record. -/
theorem insertMessageEnhanced_upsert :
    (∀ (tbl : List Msg) (m : Msg), countById (insertMessageEnhanced tbl m) m.id = 1) ∧
    (∀ (tbl : List Msg) (m1 m2 : Msg),
      getMessage (insertMessageEnhanced (insertMessageEnhanced tbl m1) m2) m2.id = some m2) := by
  have key : ∀ (t : List Msg) (m : Msg),
      (insertMessageEnhanced t m).filter (fun r => r.id == m.id) = [m] := by
    intro t m
    have hfalse : ∀ r : Msg, ((r.id == m.id) && !(r.id == m.id)) = false := by
      intro r
      cases h : (r.id == m.id) <;> simp [h]
    simp [insertMessageEnhanced, List.filter_append, List.filter_filter, hfalse]
  constructor
  · intro tbl m
    simp [countById, key tbl m]
  · intro tbl m1 m2
    simp [getMessage, key (insertMessageEnhanced tbl m1) m2]

/-! ## Claim C10: the silent no-op path of a timer firing -/

/-- C10: when the fetched recent-message list is empty or its first
element is agent-authored, the timer firing returns at once: the decision
log is untouched, no job is queued, and the decision oracle is not
called. -/
theorem evaluateAutonomousResponse_silent_noop
    (recentMessages : List Msg) (botUserId channelId : String) (outcome : OracleOutcome)
    (log : List DecisionRecord) (queue : List Job) (nowMs : Int)
    (h : recentMessages = [] ∨
         ∃ m rest, recentMessages = m :: rest ∧ m.is_bot_message = true) :
    evaluateAutonomousResponse recentMessages botUserId channelId outcome log queue nowMs
      = (log, queue, false) := by
  have hb : hasMessagesSinceLastBotResponse recentMessages = false := by
    rcases h with h | ⟨m, rest, hmr, hm⟩
    · simp [h, hasMessagesSinceLastBotResponse]
    · simp [hmr, hasMessagesSinceLastBotResponse, hm]
  simp [evaluateAutonomousResponse, hb]

/-- Witness for C10: a firing whose freshest stored message is the agent
reply itself changes nothing and never reaches the oracle. -/
theorem evaluateAutonomousResponse_silent_noop_witness :
    ([mkMsg "x" "chan" "BOT" 0 true "done"] = ([] : List Msg) ∨
      ∃ m rest, [mkMsg "x" "chan" "BOT" 0 true "done"] = m :: rest ∧
        m.is_bot_message = true) ∧
    evaluateAutonomousResponse [mkMsg "x" "chan" "BOT" 0 true "done"] "BOT" "chan"
      (OracleOutcome.failure "network error") [] [] 0 = ([], [], false) :=
  ⟨Or.inr ⟨_, _, rfl, rfl⟩,
   evaluateAutonomousResponse_silent_noop _ _ _ _ _ _ _ (Or.inr ⟨_, _, rfl, rfl⟩)⟩

theorem processMessageQueue_append (proc : Job → Except String Unit) :
    ∀ a b : List Job, processMessageQueue proc (a ++ b) =
      processMessageQueue proc a ++ processMessageQueue proc b := by
  intro a b
  induction a with
  | nil => simp [processMessageQueue]
  | cons j rest ih =>
    cases hp : proc j with
    | ok u => simp [processMessageQueue, hp, ih]
    | error e =>
      cases j with
      | direct m => simp [processMessageQueue, hp, ih]
      | autonomous channelId decisionId => simp [processMessageQueue, hp, ih]

theorem shouldRespond_called_of_ne_nil (messages : List Msg) (botUserId channelId : String)
    (botRatio : Option Rat) (outcome : OracleOutcome) (log : List DecisionRecord)
    (h : messages ≠ []) :
    (shouldRespond messages botUserId channelId botRatio outcome log).2.2 = true := by
  cases messages with
  | nil => exact absurd rfl h
  | cons m rest =>
    cases outcome with
    | failure err => rfl
    | response sr rto rsn =>
      cases sr with
      | some b => rfl
      | none => rfl

/-! ## Claim C9: the dispatch worker isolates job failures -/

/-- C9: an error processing one job is confined to it.  A failing direct
job contributes exactly the apology reply; a failing autonomous job
contributes nothing; in both cases the jobs before and after it are
processed exactly as they would be on their own. -/
theorem processMessageQueue_isolates_errors
    (proc : Job → Except String Unit) (pre post : List Job) :
    (∀ (m : Msg) (e : String), proc (Job.direct m) = Except.error e →
      processMessageQueue proc (pre ++ Job.direct m :: post) =
        processMessageQueue proc pre ++
          DispatchEvent.errorReply m :: processMessageQueue proc post) ∧
    (∀ (channelId : String) (decisionId : Option Nat) (e : String),
      proc (Job.autonomous channelId decisionId) = Except.error e →
      processMessageQueue proc (pre ++ Job.autonomous channelId decisionId :: post) =
        processMessageQueue proc pre ++ processMessageQueue proc post) := by
  constructor
  · intro m e he
    rw [processMessageQueue_append]
    simp [processMessageQueue, he]
  · intro channelId decisionId e he
    rw [processMessageQueue_append]
    simp [processMessageQueue, he]

/-- Witness for C9: with a processor that throws on every job, a failing
direct job in the middle of the queue yields exactly its apology between
the events of the jobs around it. -/
theorem processMessageQueue_isolates_errors_witness :
    ((fun _ => (Except.error "boom" : Except String Unit)) (Job.direct exStoreOld)
        = Except.error "boom") ∧
    processMessageQueue (fun _ => (Except.error "boom" : Except String Unit))
        ([Job.autonomous "chan" none] ++ Job.direct exStoreOld :: [Job.direct exStoreNew]) =
      processMessageQueue (fun _ => (Except.error "boom" : Except String Unit))
          [Job.autonomous "chan" none] ++
        DispatchEvent.errorReply exStoreOld ::
          processMessageQueue (fun _ => (Except.error "boom" : Except String Unit))
            [Job.direct exStoreNew] :=
  ⟨rfl,
   (processMessageQueue_isolates_errors (fun _ => (Except.error "boom" : Except String Unit))
     [Job.autonomous "chan" none] [Job.direct exStoreNew]).1 exStoreOld "boom" rfl⟩

/-! ## Claim C6: direct triggers and the pending debounce timer -/

/-- Counterexample to C6 as stated: an inbound direct trigger for a
channel whose debounce timer is armed enqueues the direct job but leaves
the timer armed; handleMessageCreate never touches evaluationTimers on
the direct path, so the armed autonomous evaluation can still fire. -/
theorem direct_trigger_timer_counterexample :
    isDirectTrigger "BOT" exDirectInbound = true ∧
    handleMessageCreate "BOT" [] true { timers := ["chan1"], queue := [] } exDirectInbound
      = { timers := ["chan1"], queue := [Job.direct exDirectInbound.record] } :=
  ⟨by decide, by decide⟩

/-- C6 amended: a direct trigger enqueues a direct job immediately and
leaves every armed timer untouched; the timer of the channel is removed
only by cancelEvaluationTimer, which processDirectMessage runs after the
reply has been sent. -/
theorem direct_trigger_enqueues_and_defers_cancel
    (botUserId : String) (channels : List String) (autonomousEnabled : Bool)
    (s : ClientState) (m : InboundMsg)
    (hbot : m.author_is_bot_account = false)
    (hallow : isAllowedChannel channels m.record.channel_id = true)
    (htrig : isDirectTrigger botUserId m = true) :
    handleMessageCreate botUserId channels autonomousEnabled s m
      = { s with queue := s.queue ++ [Job.direct m.record] } ∧
    (handleMessageCreate botUserId channels autonomousEnabled s m).timers = s.timers ∧
    (∀ channelId, channelId ∉ (cancelEvaluationTimer s channelId).timers) := by
  have heq : handleMessageCreate botUserId channels autonomousEnabled s m
      = { s with queue := s.queue ++ [Job.direct m.record] } := by
    simp [handleMessageCreate, hbot, hallow, htrig]
  refine ⟨heq, by rw [heq], ?_⟩
  intro channelId
  simp [cancelEvaluationTimer, List.mem_filter]

/-- Witness for the amended C6 at a concrete armed state. -/
theorem direct_trigger_enqueues_and_defers_cancel_witness :
    (exDirectInbound.author_is_bot_account = false) ∧
    (isAllowedChannel [] exDirectInbound.record.channel_id = true) ∧
    (isDirectTrigger "BOT" exDirectInbound = true) ∧
    (handleMessageCreate "BOT" [] true { timers := ["chan1"], queue := [] } exDirectInbound
        = { timers := ["chan1"], queue := [] ++ [Job.direct exDirectInbound.record] } ∧
      (handleMessageCreate "BOT" [] true { timers := ["chan1"], queue := [] }
          exDirectInbound).timers = ["chan1"] ∧
      (∀ channelId, channelId ∉
        (cancelEvaluationTimer { timers := ["chan1"], queue := [] } channelId).timers)) :=
  ⟨rfl, by decide, by decide,
   direct_trigger_enqueues_and_defers_cancel "BOT" [] true
     { timers := ["chan1"], queue := [] } exDirectInbound rfl (by decide) (by decide)⟩

/-! ## Claim C8: the decision-oracle adapter and the decision log -/

/-- Counterexample to C8 as stated: an invocation of the adapter with an
empty evaluated window returns a negative verdict without calling the
oracle and without recording any Decision row, so not every invocation
records a Decision. -/
theorem shouldRespond_empty_counterexample :
    (shouldRespond [] "BOT" "chan" none (OracleOutcome.failure "network error") []).2.1
        = [] ∧
    (shouldRespond [] "BOT" "chan" none (OracleOutcome.failure "network error") []).2.2
        = false ∧
    (shouldRespond [] "BOT" "chan" none
        (OracleOutcome.failure "network error") []).1.should_respond = false :=
  ⟨rfl, rfl, rfl⟩

/-- C8 amended: on a nonempty window every invocation appends exactly one
Decision row (carrying the evaluated message ids, channel and window
size) before returning, on success and on failure alike; a thrown error
or a missing / non-boolean verdict yields a negative returned verdict
whose reason carries the error text. -/
theorem shouldRespond_spec (messages : List Msg) (botUserId channelId : String)
    (botRatio : Option Rat) (outcome : OracleOutcome) (log : List DecisionRecord)
    (h : messages ≠ []) :
    adapterLogsSpec messages botUserId channelId botRatio outcome log := by
  unfold adapterLogsSpec
  cases messages with
  | nil => exact absurd rfl h
  | cons m rest =>
    cases outcome with
    | failure err =>
      refine ⟨_, rfl, rfl, rfl, rfl, rfl, ?_, ?_, ?_⟩
      · intro e he
        obtain rfl : err = e := by simpa using he
        exact ⟨rfl, rfl, rfl, rfl⟩
      · intro rto rsn he
        simp at he
      · intro b rto rsn he
        simp at he
    | response sr rto rsn =>
      cases sr with
      | none =>
        refine ⟨_, rfl, rfl, rfl, rfl, rfl, ?_, ?_, ?_⟩
        · intro e he
          simp at he
        · intro rto2 rsn2 he
          exact ⟨rfl, rfl⟩
        · intro b rto2 rsn2 he
          simp at he
      | some b =>
        refine ⟨_, rfl, rfl, rfl, rfl, rfl, ?_, ?_, ?_⟩
        · intro e he
          simp at he
        · intro rto2 rsn2 he
          simp at he
        · intro b2 rto2 rsn2 he
          obtain ⟨hb, -, -⟩ := by simpa using he
          exact ⟨hb ▸ rfl, hb ▸ rfl⟩

/-- Witness for the amended C8 on a one-message window with a failing
oracle call. -/
theorem shouldRespond_spec_witness :
    ([mkMsg "w" "chan" "alice" 0 false "hi"] ≠ ([] : List Msg)) ∧
    adapterLogsSpec [mkMsg "w" "chan" "alice" 0 false "hi"] "BOT" "chan" none
      (OracleOutcome.failure "network error") [] :=
  ⟨by decide,
   shouldRespond_spec [mkMsg "w" "chan" "alice" 0 false "hi"] "BOT" "chan" none
     (OracleOutcome.failure "network error") [] (by decide)⟩

/-! ## Claim C1: no hard dominance ceiling gates the oracle call -/

/-- Counterexample to C1 as stated: a history whose dominance ratio is
1/2, above the 0.40 ceiling the specification names, still reaches the
decision oracle when the timer fires (the call flag is true). -/
theorem hard_ceiling_counterexample :
    (2 : Rat)/5 < calculateBotRatio exDominated "BOT" 0 20 30 ∧
    (evaluateAutonomousResponse exDominated "BOT" "chan"
        (OracleOutcome.response (some false) none none) [] [] 0).2.2 = true := by
  constructor
  · have e1 : ("alice" == "BOT") = false := by decide
    have e2 : ("BOT" == "BOT") = true := by decide
    have e3 : ("bob" == "BOT") = false := by decide
    norm_num [calculateBotRatio, exDominated, mkMsg, List.filter, e1, e2, e3]
  · decide

/-- C1 amended: the computed dominance ratio never gates the autonomous
evaluation.  Whenever there are new messages since the last agent reply
and the filtered evaluation window is nonempty, the timer firing reaches
the decision oracle, whatever the ratio; the ratio is only passed along
to the oracle as context. -/
theorem ratio_never_gates_oracle
    (recentMessages : List Msg) (botUserId channelId : String) (outcome : OracleOutcome)
    (log : List DecisionRecord) (queue : List Job) (nowMs : Int)
    (h1 : hasMessagesSinceLastBotResponse recentMessages = true)
    (h2 : getMessagesForEvaluation recentMessages 5 nowMs 30 30 ≠ []) :
    (evaluateAutonomousResponse recentMessages botUserId channelId outcome log queue
        nowMs).2.2 = true := by
  rcases hsr : shouldRespond (getMessagesForEvaluation recentMessages 5 nowMs 30 30)
      botUserId channelId (some (calculateBotRatio recentMessages botUserId nowMs 20 30))
      outcome log with ⟨decision, log1, called⟩
  have hc := shouldRespond_called_of_ne_nil
    (getMessagesForEvaluation recentMessages 5 nowMs 30 30) botUserId channelId
    (some (calculateBotRatio recentMessages botUserId nowMs 20 30)) outcome log h2
  rw [hsr] at hc
  simp only at hc
  simp [evaluateAutonomousResponse, h1, hsr, hc]

/-- Witness for the amended C1 at the dominated history: the ratio is
above the named ceiling and the oracle is still called. -/
theorem ratio_never_gates_oracle_witness :
    (hasMessagesSinceLastBotResponse exDominated = true) ∧
    (getMessagesForEvaluation exDominated 5 0 30 30 ≠ []) ∧
    (evaluateAutonomousResponse exDominated "BOT" "chan"
        (OracleOutcome.response (some true) none none) [] [] 0).2.2 = true :=
  ⟨by decide, by decide,
   ratio_never_gates_oracle exDominated "BOT" "chan"
     (OracleOutcome.response (some true) none none) [] [] 0 (by decide) (by decide)⟩

/-! ## Claim C2: delivery order of getRecentMessages -/

/-- C2 (code bug, evaluated at the failing input): with two stored rows
of one channel, getRecentMessages returns the older row first: the outer
ORDER BY created_at ASC delivers ascending (oldest first) order, while
the specification and the doc comments of every evaluation-path caller
(hasMessagesSinceLastBotResponse, calculateBotRatio,
getMessagesForEvaluation) require newest first. -/
theorem getRecentMessages_failing_input :
    getRecentMessages [exStoreNew, exStoreOld] "chan" 50 = [exStoreOld, exStoreNew] ∧
    exStoreOld.created_at < exStoreNew.created_at :=
  ⟨by decide, by decide⟩

theorem splitAtFirstBot_none {l : List Msg} (h : splitAtFirstBot l = none) :
    ∀ m ∈ l, m.is_bot_message = false := by
  induction l with
  | nil => intro x hx; simp at hx
  | cons m rest ih =>
    by_cases hm : m.is_bot_message = true
    · simp [splitAtFirstBot, hm] at h
    · have hm2 : m.is_bot_message = false := by simpa using hm
      cases hsp : splitAtFirstBot rest with
      | some p =>
        rcases p with ⟨pre, b, post⟩
        simp [splitAtFirstBot, hm2, hsp] at h
      | none =>
        intro x hx
        rcases List.mem_cons.mp hx with rfl | hx2
        · exact hm2
        · exact ih hsp x hx2

theorem splitAtFirstBot_some {l pre : List Msg} {b : Msg} {post : List Msg}
    (h : splitAtFirstBot l = some (pre, b, post)) :
    l = pre ++ b :: post ∧ b.is_bot_message = true ∧
      ∀ m ∈ pre, m.is_bot_message = false := by
  induction l generalizing pre with
  | nil => simp [splitAtFirstBot] at h
  | cons m rest ih =>
    by_cases hm : m.is_bot_message = true
    · have hx : splitAtFirstBot (m :: rest) = some ([], m, rest) := by
        simp [splitAtFirstBot, hm]
      rw [hx] at h
      injection h with h2
      injection h2 with ha hbc
      injection hbc with hb hc
      subst ha; subst hb; subst hc
      exact ⟨by simp, hm, by intro x hx2; simp at hx2⟩
    · have hm2 : m.is_bot_message = false := by simpa using hm
      cases hsp : splitAtFirstBot rest with
      | none =>
        simp [splitAtFirstBot, hm2, hsp] at h
      | some p =>
        rcases p with ⟨pre2, b2, post2⟩
        have hx : splitAtFirstBot (m :: rest) = some (m :: pre2, b2, post2) := by
          simp [splitAtFirstBot, hm2, hsp]
        rw [hx] at h
        injection h with h2
        injection h2 with ha hbc
        injection hbc with hb hc
        subst ha; subst hb; subst hc
        obtain ⟨e1, e2, e3⟩ := ih hsp
        refine ⟨by simp [e1], e2, ?_⟩
        intro x hx2
        rcases List.mem_cons.mp hx2 with rfl | hx3
        · exact hm2
        · exact e3 x hx3

theorem gapCut_sublist (T : Int) : ∀ l : List Msg, List.Sublist (gapCut T l) l := by
  intro l
  induction l with
  | nil => simp [gapCut]
  | cons m rest ih =>
    cases rest with
    | nil => simp [gapCut]
    | cons n rest2 =>
      by_cases hg : T < m.created_at - n.created_at
      · simp only [gapCut, if_pos hg]
        exact (List.nil_sublist _).cons₂ m
      · simp only [gapCut, if_neg hg]
        exact ih.cons₂ m

theorem filterByConversationGaps_sublist (messages : List Msg) (maxGapMinutes : Int) :
    List.Sublist (filterByConversationGaps messages maxGapMinutes) messages := by
  unfold filterByConversationGaps
  by_cases h : messages.length ≤ 1
  · simp [h]
  · simp [h, gapCut_sublist]

theorem getMessagesForEvaluation_eq (messages : List Msg) (contextBefore : Nat)
    (nowMs maxAgeMinutes maxGapMinutes : Int) :
    getMessagesForEvaluation messages contextBefore nowMs maxAgeMinutes maxGapMinutes =
      match splitAtFirstBot (filterByConversationGaps
          (messages.filter (fun m => nowMs - maxAgeMinutes * 60 * 1000 ≤ m.created_at))
          maxGapMinutes) with
      | none => (filterByConversationGaps
          (messages.filter (fun m => nowMs - maxAgeMinutes * 60 * 1000 ≤ m.created_at))
          maxGapMinutes).reverse
      | some (pre, b, post) => (post.take contextBefore).reverse ++ b :: pre.reverse := by
  simp only [getMessagesForEvaluation]
  generalize messages.filter
      (fun m => decide (nowMs - maxAgeMinutes * 60 * 1000 ≤ m.created_at)) = recent
  by_cases h1 : recent.length = 0
  · have hn : recent = [] := List.length_eq_zero.mp h1
    subst hn
    simp [filterByConversationGaps, splitAtFirstBot]
  · simp only [h1, if_false]
    by_cases h2 : (filterByConversationGaps recent maxGapMinutes).length = 0
    · have hnil := List.length_eq_zero.mp h2
      simp [h2, hnil, splitAtFirstBot]
    · simp only [h2, if_false]

/-! ## Claim C4: the windower output -/

/-- Counterexample to C4 as stated: on an input delivered oldest first
the windower merely reverses the surviving list, so the output is newest
first, not chronological: the claimed ordering does not hold regardless
of input ordering. -/
theorem windower_not_chronological_counterexample :
    getMessagesForEvaluation exAscending 5 1800000 30 30 =
      [mkMsg "a2" "chan" "bob" 60000 false "second",
       mkMsg "a1" "chan" "alice" 0 false "first"] ∧
    ¬ sortedOldestFirst (getMessagesForEvaluation exAscending 5 1800000 30 30) :=
  ⟨by decide, by decide⟩

/-- C4 amended: for input delivered newest first (the ordering the
windower documents and its callers are written for), the windower output
satisfies the claimed contract: chronological output; with no surviving
agent-authored message, all survivors oldest first; otherwise up to
contextBefore messages immediately preceding the most recent
agent-authored survivor, that message, then all messages following it,
oldest first. -/
theorem getMessagesForEvaluation_spec (messages : List Msg) (contextBefore : Nat)
    (nowMs maxAgeMinutes maxGapMinutes : Int) (h : sortedNewestFirst messages) :
    windowerSpec messages contextBefore nowMs maxAgeMinutes maxGapMinutes := by
  unfold windowerSpec
  simp only [getMessagesForEvaluation_eq]
  have hrecsorted : sortedNewestFirst
      (messages.filter (fun m => decide (nowMs - maxAgeMinutes * 60 * 1000 ≤ m.created_at))) :=
    h.filter _
  have hsurvsorted : sortedNewestFirst (filterByConversationGaps
      (messages.filter (fun m => decide (nowMs - maxAgeMinutes * 60 * 1000 ≤ m.created_at)))
      maxGapMinutes) :=
    List.Pairwise.sublist (filterByConversationGaps_sublist _ _) hrecsorted
  cases hsp : splitAtFirstBot (filterByConversationGaps
      (messages.filter (fun m => decide (nowMs - maxAgeMinutes * 60 * 1000 ≤ m.created_at)))
      maxGapMinutes) with
  | none =>
    refine ⟨List.pairwise_reverse.mpr hsurvsorted, ?_, ?_⟩
    · intro _
      exact ⟨splitAtFirstBot_none hsp, rfl⟩
    · intro pre b post habs
      exact Option.noConfusion habs
  | some p =>
    rcases p with ⟨pre, b, post⟩
    obtain ⟨hdecomp, hbot, hpre⟩ := splitAtFirstBot_some hsp
    obtain ⟨hpre_s, hbp_s, hcross⟩ := List.pairwise_append.mp (hdecomp ▸ hsurvsorted)
    obtain ⟨hb_post, hpost_s⟩ := List.pairwise_cons.mp hbp_s
    refine ⟨?_, ?_, ?_⟩
    · -- chronological output
      refine List.pairwise_append.mpr ⟨?_, ?_, ?_⟩
      · exact List.pairwise_reverse.mpr
          (List.Pairwise.sublist (List.take_sublist _ _) hpost_s)
      · refine List.pairwise_cons.mpr ⟨?_, ?_⟩
        · intro y hy
          rw [List.mem_reverse] at hy
          exact hcross y hy b (List.mem_cons_self _ _)
        · exact List.pairwise_reverse.mpr hpre_s
      · intro x hx y hy
        rw [List.mem_reverse] at hx
        have hxpost : x ∈ post := List.mem_of_mem_take hx
        have hxb : x.created_at ≤ b.created_at := hb_post x hxpost
        rcases List.mem_cons.mp hy with rfl | hy2
        · exact hxb
        · rw [List.mem_reverse] at hy2
          exact le_trans hxb (hcross y hy2 b (List.mem_cons_self _ _))
    · intro habs
      exact Option.noConfusion habs
    · intro pre2 b2 post2 heq
      injection heq with h2
      injection h2 with ha hbc
      injection hbc with hb hc
      subst ha; subst hb; subst hc
      exact ⟨hbot, hpre, hdecomp, rfl⟩

/-- Witness for the amended C4 at a concrete newest-first history with
one agent-authored message inside the window. -/
theorem getMessagesForEvaluation_spec_witness :
    sortedNewestFirst exWindowed ∧ windowerSpec exWindowed 5 0 30 30 :=
  ⟨by decide, getMessagesForEvaluation_spec exWindowed 5 0 30 30 (by decide)⟩

end Impostor
